import Mathlib

/-!
Shallow embedding of the leader replication core of `datafuse-extras/async-raft`
(`openraft/src/engine/handler/replication_handler/mod.rs`), together with proofs about
commit advancement, progress updates, purge gating and membership-driven rebuilds.

Machine integers (`u64` ids, log indexes) are modelled as `Nat`; node ids as `Nat`;
instants as `Nat`.  Fallible operations that the Rust code terminates with `panic!`,
`unwrap()` or `expect()` are modelled as `Option`-returning functions where `none`
is the panic outcome.  `debug_assert!` checks, which are compiled out in release
builds, are not modelled.
-/

/-- A log id: the id of the leader that proposed the entry, and the entry index.
In the source `leader_id` itself is totally ordered and log ids compare
lexicographically (spec section 3). -/
structure LogId where
  leader_id : Nat
  index : Nat
deriving DecidableEq, Repr

/-- Lexicographic order on log ids, mirroring the derived `Ord` of the source. -/
def LogId.leb (a b : LogId) : Bool :=
  decide (a.leader_id < b.leader_id ∨ (a.leader_id = b.leader_id ∧ a.index ≤ b.index))

/-- Order on `Option LogId` with `none` least, mirroring Rust's `Option<LogId>` ordering. -/
def oleb : Option LogId → Option LogId → Bool
  | Option.none, _ => true
  | some _, Option.none => false
  | some a, some b => a.leb b

/-- Strict order on `Option LogId`, defined from `oleb` by totality. -/
def oltb (a b : Option LogId) : Bool := !(oleb b a)

/-- Maximum of two optional log ids under `oleb`. -/
def omax (a b : Option LogId) : Option LogId := if oleb a b then b else a

/-- Next index after an optional log id: `None.next_index() = 0`,
`Some(l).next_index() = l.index + 1` (`LogIdOptionExt::next_index`). -/
def next_index : Option LogId → Nat
  | Option.none => 0
  | some l => l.index + 1

/-- Modelled from the spec: `Inflight` (not under `src/`) — one outstanding replication
request, tagged with a request id allocated per target; variants `None`,
`Logs{prev, last}`, `Snapshot{last_included}` (spec section 3). -/
inductive Inflight where
  | None : Inflight
  | Logs (id : Nat) (prev : Option LogId) (last : Option LogId) : Inflight
  | Snapshot (id : Nat) (last_included : Option LogId) : Inflight
deriving DecidableEq, Repr

/-- Modelled from the spec: `Inflight::logs(prev, last)` constructor used by
`update_local_progress`; the fresh request id is modelled as 0. -/
def Inflight.logs (prev last : Option LogId) : Inflight := Inflight.Logs 0 prev last

/-- Modelled from the spec: `Inflight::get_id` — the request id of a non-`None` inflight. -/
def Inflight.get_id : Inflight → Option Nat
  | Inflight.None => Option.none
  | Inflight.Logs i _ _ => some i
  | Inflight.Snapshot i _ => some i

/-- Modelled from the spec: `RequestId` (not under `src/`) — a distinguished `HeartBeat`
id that carries no data id, or a data-request id; `request_id()` extracts the data id
(spec section 9, open questions). -/
inductive RequestId where
  | HeartBeat : RequestId
  | Data (id : Nat) : RequestId
deriving DecidableEq, Repr

/-- Modelled from the spec: `RequestId::request_id` — `HeartBeat` has no data id. -/
def RequestId.request_id : RequestId → Option Nat
  | RequestId.HeartBeat => Option.none
  | RequestId.Data i => some i

/-- Modelled from the spec: `ProgressEntry` (not under `src/`) — per-target `matching`
(greatest accepted log id), `end_` (exclusive upper bound of the index the target could
accept next) and the inflight request (spec section 3).  The conflict-bisection
`search_state` window is determined by `matching` and `end_` and is not stored separately. -/
structure ProgressEntry where
  matching : Option LogId
  end_ : Nat
  inflight : Inflight
deriving DecidableEq, Repr

/-- Modelled from the spec: `ProgressEntry::empty(end)` — the default entry given to a
new target: `matching = None`, no inflight (spec section 3, lifecycle). -/
def ProgressEntry.empty (end_ : Nat) : ProgressEntry :=
  { matching := Option.none, end_ := end_, inflight := Inflight.None }

/-- Modelled from the spec: `ProgressEntry::update_matching(req_id, new_matching)` —
requires the inflight id to equal `req_id`; sets `matching := max(matching, new)`,
`end_ := max(end_, matching.next_index())`, clears the inflight; fails on a stale id
(spec section 4.1). -/
def ProgressEntry.update_matching (e : ProgressEntry) (req_id : Nat)
    (new_matching : Option LogId) : Except String ProgressEntry :=
  if e.inflight.get_id = some req_id then
    let m := omax e.matching new_matching
    Except.ok { matching := m, end_ := max e.end_ (next_index m), inflight := Inflight.None }
  else
    Except.error "stale request id"

/-- Modelled from the spec: `ProgressEntry::update_conflicting(req_id, conflict_index)` —
requires a matching inflight id; shrinks `end_` to `min(end_, conflict_index)` and clears
the inflight; fails on a stale id (spec section 4.1). -/
def ProgressEntry.update_conflicting (e : ProgressEntry) (req_id : Nat)
    (conflict_index : Nat) : Except String ProgressEntry :=
  if e.inflight.get_id = some req_id then
    Except.ok { matching := e.matching, end_ := min e.end_ conflict_index, inflight := Inflight.None }
  else
    Except.error "stale request id"

/-- Modelled from the spec: `ProgressEntry::is_log_range_inflight(upto)` — a log index
`i` is in use by a target iff its inflight is `Logs` with `prev.index < i`; the entry
blocks purging up to `upto` iff it uses some index `≤ upto.index` (spec section 4.5). -/
def ProgressEntry.is_log_range_inflight (e : ProgressEntry) (upto : LogId) : Bool :=
  match e.inflight with
  | Inflight.Logs _ prev _ =>
    match prev with
    | Option.none => true
    | some p => decide (p.index < upto.index)
  | _ => false

/-- Modelled from the spec: the `QuorumSet` — one or two (joint) voter configurations;
a set is a quorum iff it has a majority in every configuration (spec section 4.2). -/
structure QuorumSet where
  configs : List (List Nat)
deriving DecidableEq, Repr

/-- All voter ids of a quorum set. -/
def QuorumSet.ids (qs : QuorumSet) : List Nat := qs.configs.flatten

/-- Majority test of one configuration against a predicate. -/
def is_majority (ids : List Nat) (pred : Nat → Bool) : Bool :=
  decide (ids.length < 2 * (ids.filter pred).length)

/-- Modelled from the spec: `QuorumSet::is_quorum` over the set of targets satisfying
`pred` — majority in every (possibly joint) configuration. -/
def QuorumSet.is_quorum_pred (qs : QuorumSet) (pred : Nat → Bool) : Bool :=
  qs.configs.all (fun c => is_majority c pred)

/-- Modelled from the spec: `Progress` (not under `src/`) — an ordered mapping
target → value plus the quorum set governing acceptance (spec section 3). -/
structure Progress (V : Type) where
  entries : List (Nat × V)
  quorum_set : QuorumSet
deriving DecidableEq, Repr

/-- Value stored for a target, if the target is tracked. -/
def Progress.get {V : Type} (p : Progress V) (t : Nat) : Option V :=
  (p.entries.find? (fun te => te.1 == t)).map (fun te => te.2)

/-- Replace the value stored for a target (no-op for untracked targets). -/
def Progress.set {V : Type} (p : Progress V) (t : Nat) (v : V) : Progress V :=
  { p with entries := p.entries.map (fun te => if te.1 = t then (t, v) else te) }

/-- Modelled from the spec: `Progress::upgrade_quorum_set(new_qs, new_learners, default)`
— targets present in the old progress carry their value forward, new targets get the
default, removed targets are dropped (spec section 4.2). -/
def Progress.upgrade_quorum_set {V : Type} (p : Progress V) (qs : QuorumSet)
    (learners : List Nat) (d : V) : Progress V :=
  { entries := ((qs.ids ++ learners).dedup).map (fun t => (t, (p.get t).getD d)),
    quorum_set := qs }

/-- Modelled from the spec: the quorum-accepted value of a progress of `ProgressEntry` —
the greatest `matching` value `v` such that the targets with `matching ≥ v` form a
quorum (spec sections 4.2 and 8.3). -/
def Progress.granted (p : Progress ProgressEntry) : Option LogId :=
  let valueOf : Nat → Option LogId := fun t =>
    match p.get t with
    | some e => e.matching
    | Option.none => Option.none
  let ok : Option LogId → Bool := fun v =>
    p.quorum_set.is_quorum_pred (fun t => oleb v (valueOf t))
  (p.entries.map (fun te => te.2.matching)).foldl
    (fun best v => if ok v && oltb best v then v else best) Option.none

/-- Order on `Option Nat` instants with `none` least (clock progress values). -/
def onat_leb : Option Nat → Option Nat → Bool
  | Option.none, _ => true
  | some _, Option.none => false
  | some a, some b => decide (a ≤ b)

/-- Modelled from the spec: `Progress::increase_to` on the clock progress — monotone
per-target increase; `none` models the `expect` panic on an untracked target. -/
def Progress.increase_to (p : Progress (Option Nat)) (t : Nat) (v : Option Nat) :
    Option (Progress (Option Nat)) :=
  match p.get t with
  | Option.none => Option.none
  | some old => some (p.set t (if onat_leb old v then v else old))

/-- Modelled from the spec: `Membership` (named `RaftMembership` here to avoid the Mathlib class) — one or two (joint) voter configurations plus
the learner ids (spec section 3). -/
structure RaftMembership where
  configs : List (List Nat)
  learners : List Nat
deriving DecidableEq, Repr

/-- Modelled from the spec: `Membership::to_quorum_set`. -/
def RaftMembership.to_quorum_set (m : RaftMembership) : QuorumSet := { configs := m.configs }

/-- Modelled from the spec: `EffectiveMembership::new(log_id, membership)` — the most
recent membership log entry, committed or not (spec glossary). -/
structure EffectiveMembership where
  log_id : Option LogId
  membership : RaftMembership
deriving DecidableEq, Repr

/-- Server state of a node (spec section 3). -/
inductive ServerState where
  | Follower : ServerState
  | Candidate : ServerState
  | Leader : ServerState
deriving DecidableEq, Repr

/-- The slice of `RaftState` read and written by the replication handler
(spec section 3): the current vote's leader id, server state, commit point, purge
bounds, log tail, snapshot metadata and the effective membership. -/
structure RaftState where
  vote_leader_id : Nat
  server_state : ServerState
  committed : Option LogId
  last_purged_log_id : Option LogId
  purge_upto : Option LogId
  last_log_id : Option LogId
  snapshot_last : Option LogId
  effective : EffectiveMembership
deriving DecidableEq, Repr

/-- Modelled from the spec: `RaftState::update_committed` (not under `src/`) —
`committed` is one-way monotone; on a strict advance it returns the previous value,
which becomes `already_committed` of the `Commit` command (spec sections 3 and 4.3). -/
def RaftState.update_committed (s : RaftState) (granted : Option LogId) :
    Option (Option LogId) × RaftState :=
  if oltb s.committed granted then
    (some s.committed, { s with committed := granted })
  else
    (Option.none, s)

/-- The leader state owned by the engine while this node leads: the replication
progress and the clock (leader-lease) progress (`proposer::Leader`). -/
structure Leader where
  progress : Progress ProgressEntry
  clock_progress : Progress (Option Nat)
deriving DecidableEq, Repr

/-- Commands emitted by the engine to the driver (spec section 6). -/
inductive Command where
  | Replicate (target : Nat) (req : Inflight) : Command
  | ReplicateCommitted (committed : Option LogId) : Command
  | Commit (already_committed : Option LogId) (upto : LogId) : Command
  | RebuildReplicationStreams (targets : List (Nat × ProgressEntry)) : Command
  | PurgeLog (upto : LogId) : Command
  | TriggerSnapshot : Command
deriving DecidableEq, Repr

/-- The replication handler state: the leader's progress trackers and the raft state.
The engine config (`id`, `max_payload_entries`, `snapshot_policy`) is passed to each
operation as explicit arguments; emitted commands are returned instead of being pushed
to an output buffer. -/
structure ReplicationHandler where
  leader : Leader
  state : RaftState
deriving DecidableEq, Repr

deriving instance DecidableEq for Except

/-- Result carried by a successful replication response: the instant the request was
sent, and either the new matching log id or the conflicting log id. -/
structure ReplicationResult where
  sending_time : Nat
  result : Except LogId (Option LogId)
deriving DecidableEq, Repr

/-- Option about sending an RPC even when there is no data (a heartbeat). -/
inductive SendNone where
  | False : SendNone
  | True : SendNone
deriving DecidableEq, Repr

/-- `ReplicationHandler::try_commit_quorum_accepted(granted)`: commit the log id
granted by a quorum iff it was proposed by the current leader; on advance emit
`ReplicateCommitted` and `Commit{already_committed, upto}` and trigger a snapshot iff
the snapshot policy fires (source lines 223-245). -/
def ReplicationHandler.try_commit_quorum_accepted (pol : RaftState → Bool)
    (rh : ReplicationHandler) (granted : Option LogId) : ReplicationHandler × List Command :=
  if (match granted with
      | some c => !(c.leader_id == rh.state.vote_leader_id)
      | Option.none => false) then
    (rh, [])
  else
    match RaftState.update_committed rh.state granted with
    | (some prev, st2) =>
      -- committed is Some here: update_committed only advances to a strictly greater,
      -- hence Some, value; getD models the safe `.unwrap()` of the source.
      let cs := [Command.ReplicateCommitted st2.committed,
                 Command.Commit prev (st2.committed.getD (LogId.mk 0 0))]
      ({ rh with state := st2 }, if pol st2 then cs ++ [Command.TriggerSnapshot] else cs)
    | (Option.none, st2) => ({ rh with state := st2 }, [])

/-- `ReplicationHandler::update_matching(node_id, inflight_id, log_id)`: update the
target's progress entry, recompute the quorum-accepted log id and try to commit it;
`none` models the panic on an untracked target or a stale inflight id
(source lines 186-217). -/
def ReplicationHandler.update_matching (pol : RaftState → Bool) (rh : ReplicationHandler)
    (node_id : Nat) (inflight_id : Nat) (log_id : Option LogId) :
    Option (ReplicationHandler × List Command) :=
  match rh.leader.progress.get node_id with
  | Option.none => Option.none
  | some e =>
    match e.update_matching inflight_id log_id with
    | Except.error _ => Option.none
    | Except.ok e2 =>
      let p2 := rh.leader.progress.set node_id e2
      let quorum_accepted := p2.granted
      some (ReplicationHandler.try_commit_quorum_accepted pol
        { rh with leader := { rh.leader with progress := p2 } } quorum_accepted)

/-- `ReplicationHandler::update_conflicting(target, inflight_id, conflict)`: shrink the
target's belief window; `none` models the panic on an untracked target or a stale
inflight id (source lines 250-264). -/
def ReplicationHandler.update_conflicting (rh : ReplicationHandler) (target : Nat)
    (inflight_id : Nat) (conflict : LogId) : Option (ReplicationHandler × List Command) :=
  match rh.leader.progress.get target with
  | Option.none => Option.none
  | some e =>
    match e.update_conflicting inflight_id conflict.index with
    | Except.error _ => Option.none
    | Except.ok e2 =>
      some ({ rh with leader :=
        { rh.leader with progress := rh.leader.progress.set target e2 } }, [])

/-- `ReplicationHandler::update_leader_clock(node_id, t)`: monotone increase of the
clock progress at the target; `none` models the `expect` panic on an untracked target
(source lines 151-181). -/
def ReplicationHandler.update_leader_clock (rh : ReplicationHandler) (node_id : Nat)
    (t : Nat) : Option ReplicationHandler :=
  match rh.leader.clock_progress.increase_to node_id (some t) with
  | Option.none => Option.none
  | some cp => some { rh with leader := { rh.leader with clock_progress := cp } }

/-- `ReplicationHandler::update_success_progress(target, request_id, result)`: update
the leader clock, return early for a pure heartbeat, else dispatch to
`update_matching` or `update_conflicting` (source lines 123-146). -/
def ReplicationHandler.update_success_progress (pol : RaftState → Bool)
    (rh : ReplicationHandler) (target : Nat) (request_id : RequestId)
    (result : ReplicationResult) : Option (ReplicationHandler × List Command) :=
  match ReplicationHandler.update_leader_clock rh target result.sending_time with
  | Option.none => Option.none
  | some rh1 =>
    match request_id.request_id with
    | Option.none => some (rh1, [])
    | some id =>
      match result.result with
      | Except.ok matching => ReplicationHandler.update_matching pol rh1 target id matching
      | Except.error conflict => ReplicationHandler.update_conflicting rh1 target id conflict

/-- `ReplicationHandler::try_purge_log`: purge up to `purge_upto` unless it is not
ahead of `last_purged_log_id` or some replication task still uses the range; the purge
itself (`LogHandler::purge_log`, not under `src/`) is modelled from the spec as
emitting `PurgeLog{upto}` and advancing `last_purged_log_id` (source lines 387-421). -/
def ReplicationHandler.try_purge_log (rh : ReplicationHandler) :
    ReplicationHandler × List Command :=
  if oleb rh.state.purge_upto rh.state.last_purged_log_id then
    (rh, [])
  else
    match rh.state.purge_upto with
    | Option.none =>
      -- unreachable: the guard ensures purge_upto > last_purged_log_id, hence Some;
      -- models the safe `.unwrap()` of the source.
      (rh, [])
    | some u =>
      if rh.leader.progress.entries.any (fun te => te.2.is_log_range_inflight u) then
        (rh, [])
      else
        ({ rh with state := { rh.state with last_purged_log_id := some u } },
         [Command.PurgeLog u])

/-- `ReplicationHandler::update_progress(target, request_id, repl_res)`: dispatch a
replication response — success goes to `update_success_progress`; a transport error
leaves the inflight alone for a heartbeat and clears it for a data request (panicking,
modelled as `none`, if the target is untracked) — then always re-attempt the purge
(source lines 268-315). -/
def ReplicationHandler.update_progress (pol : RaftState → Bool) (rh : ReplicationHandler)
    (target : Nat) (request_id : RequestId) (repl_res : Except String ReplicationResult) :
    Option (ReplicationHandler × List Command) :=
  let step1 : Option (ReplicationHandler × List Command) :=
    match repl_res with
    | Except.ok p => ReplicationHandler.update_success_progress pol rh target request_id p
    | Except.error _ =>
      if request_id = RequestId.HeartBeat then
        some (rh, [])
      else
        match rh.leader.progress.get target with
        | Option.none => Option.none
        | some e =>
          let p2 := rh.leader.progress.set target ({ e with inflight := Inflight.None })
          some ({ rh with leader := { rh.leader with progress := p2 } }, [])
  match step1 with
  | Option.none => Option.none
  | some (rh1, cs) =>
    let r := ReplicationHandler.try_purge_log rh1
    (some (r.1, cs ++ r.2))

/-- `ReplicationHandler::rebuild_progresses`: rebuild both progress trackers via
`upgrade_quorum_set` against the effective membership; new targets default to
`ProgressEntry::empty(last_log_id.next_index())`, the clock progress defaults to
`None` (source lines 98-119). -/
def ReplicationHandler.rebuild_progresses (rh : ReplicationHandler) : ReplicationHandler :=
  let em := rh.state.effective
  let learner_ids := em.membership.learners
  let end_ := next_index rh.state.last_log_id
  let p2 := rh.leader.progress.upgrade_quorum_set em.membership.to_quorum_set learner_ids
    (ProgressEntry.empty end_)
  let cp2 := rh.leader.clock_progress.upgrade_quorum_set em.membership.to_quorum_set
    learner_ids Option.none
  { rh with leader := { progress := p2, clock_progress := cp2 } }

/-- One step of the `rebuild_replication_streams` loop: a non-self target has its
inflight reset and is pushed (post-reset) onto the targets list. -/
def rebuild_streams_step (cfg_id : Nat)
    (acc : List (Nat × ProgressEntry) × List (Nat × ProgressEntry))
    (te : Nat × ProgressEntry) :
    List (Nat × ProgressEntry) × List (Nat × ProgressEntry) :=
  if te.1 = cfg_id then
    (acc.1 ++ [te], acc.2)
  else
    let e2 := { te.2 with inflight := Inflight.None }
    (acc.1 ++ [(te.1, e2)], acc.2 ++ [(te.1, e2)])

/-- `ReplicationHandler::rebuild_replication_streams`: reset the inflight of every
non-self target and emit one `RebuildReplicationStreams` command with the post-reset
entries of exactly those targets (source lines 319-332). -/
def ReplicationHandler.rebuild_replication_streams (cfg_id : Nat)
    (rh : ReplicationHandler) : ReplicationHandler × List Command :=
  let r := rh.leader.progress.entries.foldl (rebuild_streams_step cfg_id) ([], [])
  ({ rh with leader := { rh.leader with progress :=
      { rh.leader.progress with entries := r.1 } } },
   [Command.RebuildReplicationStreams r.2])

/-- Modelled from the spec: the capped upper end of a logs payload,
`min(last_log_id, matching + max_payload)` (spec section 4.1); the leader id of a
capped, non-tail log id is approximated by the tail's leader id — no property proved
here depends on it. -/
def cap_last (last_log_id : Option LogId) (cap_end : Nat) : Option LogId :=
  match last_log_id with
  | Option.none => Option.none
  | some l => if l.index + 1 ≤ cap_end then some l else some (LogId.mk l.leader_id (cap_end - 1))

/-- Modelled from the spec: `ProgressEntry::next_send(state, max_payload)` (not under
`src/`) — with no inflight and data pending, send a logs range if it still exists in
the log, else a snapshot, recording the new inflight on the entry; otherwise fail with
the current inflight (spec section 4.1). -/
def ProgressEntry.next_send (e : ProgressEntry) (st : RaftState) (max_payload : Nat) :
    Except Inflight (ProgressEntry × Inflight) :=
  match e.inflight with
  | Inflight.None =>
    if oleb st.last_log_id e.matching then
      Except.error Inflight.None
    else if next_index st.last_purged_log_id ≤ next_index e.matching then
      let infl := Inflight.Logs 0 e.matching
        (cap_last st.last_log_id (next_index e.matching + max_payload))
      Except.ok ({ e with inflight := infl }, infl)
    else
      let infl := Inflight.Snapshot 0 st.snapshot_last
      Except.ok ({ e with inflight := infl }, infl)
  | other => Except.error other

/-- One step of the `initiate_replication` loop over the progress entries. -/
def initiate_step (cfg_id : Nat) (max_payload : Nat) (send_none : SendNone) (st : RaftState)
    (acc : List (Nat × ProgressEntry) × List Command) (te : Nat × ProgressEntry) :
    List (Nat × ProgressEntry) × List Command :=
  if te.1 = cfg_id then
    (acc.1 ++ [te], acc.2)
  else
    match te.2.next_send st max_payload with
    | Except.ok r => (acc.1 ++ [(te.1, r.1)], acc.2 ++ [Command.Replicate te.1 r.2])
    | Except.error cur =>
      if cur = Inflight.None ∧ send_none = SendNone.True then
        (acc.1 ++ [te], acc.2 ++ [Command.Replicate te.1 Inflight.None])
      else
        (acc.1 ++ [te], acc.2)

/-- `ReplicationHandler::initiate_replication(send_none)`: for every non-self target
compute `next_send`; emit `Replicate` on success, and a heartbeat `Replicate` when idle
and `send_none` is `True` (source lines 338-372). -/
def ReplicationHandler.initiate_replication (cfg_id : Nat) (max_payload : Nat)
    (send_none : SendNone) (rh : ReplicationHandler) : ReplicationHandler × List Command :=
  let r := rh.leader.progress.entries.foldl
    (initiate_step cfg_id max_payload send_none rh.state) ([], [])
  ({ rh with leader := { rh.leader with progress :=
      { rh.leader.progress with entries := r.1 } } }, r.2)

/-- `ReplicationHandler::append_membership(log_id, m)`: append the new membership as
effective (`MembershipState::append`, modelled from the spec as replacing the effective
membership), then rebuild the progresses, rebuild the replication streams and initiate
replication without forced heartbeats (source lines 66-92). -/
def ReplicationHandler.append_membership (cfg_id : Nat) (max_payload : Nat)
    (rh : ReplicationHandler) (log_id : LogId) (m : RaftMembership) :
    ReplicationHandler × List Command :=
  let rh1 := { rh with state := { rh.state with effective :=
    { log_id := some log_id, membership := m } } }
  let rh2 := ReplicationHandler.rebuild_progresses rh1
  let r3 := ReplicationHandler.rebuild_replication_streams cfg_id rh2
  let r4 := ReplicationHandler.initiate_replication cfg_id max_payload SendNone.False r3.1
  (r4.1, r3.2 ++ r4.2)

/-- `ReplicationHandler::update_local_progress(upto)`: the leader's own local log write
completion — no-op when `upto` is `None`, when the leader is no longer tracked, or when
its matching is already at least `upto`; otherwise synthesize `Inflight::logs(None,
upto)` on the leader's own entry and run `update_matching` with that inflight's id
(source lines 429-454). -/
def ReplicationHandler.update_local_progress (pol : RaftState → Bool) (cfg_id : Nat)
    (rh : ReplicationHandler) (upto : Option LogId) :
    Option (ReplicationHandler × List Command) :=
  match upto with
  | Option.none => some (rh, [])
  | some _ =>
    match rh.leader.progress.get cfg_id with
    | Option.none => some (rh, [])
    | some e =>
      if oleb upto e.matching then
        some (rh, [])
      else
        let infl := Inflight.logs Option.none upto
        let p2 := rh.leader.progress.set cfg_id ({ e with inflight := infl })
        let rh1 := { rh with leader := { rh.leader with progress := p2 } }
        match infl.get_id with
        | some i => ReplicationHandler.update_matching pol rh1 cfg_id i upto
        | Option.none => Option.none

/-! Ordering lemmas for optional log ids. -/

/-- The lexicographic order on log ids is total. -/
theorem LogId.leb_total (a b : LogId) : a.leb b = true ∨ b.leb a = true := by
  unfold LogId.leb
  rcases Nat.lt_trichotomy a.leader_id b.leader_id with h | h | h
  · exact Or.inl (decide_eq_true (Or.inl h))
  · rcases Nat.le_total a.index b.index with hi | hi
    · exact Or.inl (decide_eq_true (Or.inr ⟨h, hi⟩))
    · exact Or.inr (decide_eq_true (Or.inr ⟨h.symm, hi⟩))
  · exact Or.inr (decide_eq_true (Or.inl h))

/-- The order on optional log ids is total. -/
theorem oleb_total : ∀ a b : Option LogId, oleb a b = true ∨ oleb b a = true
  | Option.none, _ => Or.inl rfl
  | some _, Option.none => Or.inr rfl
  | some a, some b => LogId.leb_total a b

/-- Strictly smaller implies smaller-or-equal. -/
theorem oltb_imp_oleb (a b : Option LogId) (h : oltb a b = true) : oleb a b = true := by
  rcases oleb_total a b with h1 | h1
  · exact h1
  · unfold oltb at h
    rw [h1] at h
    simp at h

/-- Reflexivity of the order on optional log ids. -/
theorem oleb_refl : ∀ a : Option LogId, oleb a a = true
  | Option.none => rfl
  | some _ => decide_eq_true (Or.inr ⟨rfl, Nat.le_refl _⟩)

/-- An optional log id is below its max with anything. -/
theorem oleb_omax_left (a b : Option LogId) : oleb a (omax a b) = true := by
  unfold omax
  split
  · next h => exact h
  · exact oleb_refl a

/-! Lookup lemmas for the progress mapping. -/

/-- Lookup in a keyed build of an association list. -/
theorem find_key_map {V : Type} (f : Nat → V) (t : Nat) :
    ∀ l : List Nat, (l.map (fun x => (x, f x))).find? (fun te => te.1 == t)
      = if t ∈ l then some (t, f t) else Option.none := by
  intro l
  induction l with
  | nil => rfl
  | cons a l ih =>
    by_cases h : a = t
    · subst h
      simp [List.find?_cons]
    · have hne : ((a, f a).1 == t) = false := by
        simpa using h
      rw [List.map_cons, List.find?_cons, hne]
      show (l.map (fun x => (x, f x))).find? (fun te => te.1 == t)
        = if t ∈ a :: l then some (t, f t) else Option.none
      rw [ih]
      by_cases ht : t ∈ l
      · rw [if_pos ht, if_pos (List.mem_cons.mpr (Or.inr ht))]
      · rw [if_neg ht, if_neg ?_]
        intro hc
        rcases List.mem_cons.mp hc with hc | hc
        · exact h hc.symm
        · exact ht hc

/-- Lookup in a progress built by mapping a key function over a list of targets. -/
theorem get_of_build {V : Type} (qs : QuorumSet) (f : Nat → V) (t : Nat) (l : List Nat) :
    Progress.get { entries := l.map (fun x => (x, f x)), quorum_set := qs } t
      = if t ∈ l then some (f t) else Option.none := by
  unfold Progress.get
  rw [find_key_map]
  by_cases h : t ∈ l
  · rw [if_pos h, if_pos h]
    rfl
  · rw [if_neg h, if_neg h]
    rfl

/-- Lookup after `upgrade_quorum_set`: survivors keep their value, fresh targets get
the default, removed targets are gone. -/
theorem progress_get_upgrade {V : Type} (p : Progress V) (qs : QuorumSet)
    (ls : List Nat) (d : V) (t : Nat) :
    (p.upgrade_quorum_set qs ls d).get t
      = if t ∈ qs.ids ++ ls then some ((p.get t).getD d) else Option.none := by
  unfold Progress.upgrade_quorum_set
  rw [get_of_build]
  by_cases h : t ∈ qs.ids ++ ls
  · rw [if_pos (List.mem_dedup.mpr h), if_pos h]
  · rw [if_neg (fun hh => h (List.mem_dedup.mp hh)), if_neg h]

/-- Setting a tracked target makes lookup return the new value. -/
theorem find_map_set {V : Type} (t : Nat) (v : V) :
    ∀ l : List (Nat × V), (l.find? (fun te => te.1 == t)).isSome = true →
      ((l.map (fun te => if te.1 = t then (t, v) else te)).find? (fun te => te.1 == t))
        = some (t, v) := by
  intro l
  induction l with
  | nil => intro h; simp [List.find?] at h
  | cons a l ih =>
    intro h
    by_cases hat : a.1 = t
    · simp [List.find?_cons, hat]
    · have hne : (a.1 == t) = false := by simpa using hat
      rw [List.find?_cons, hne] at h
      rw [List.map_cons, if_neg hat, List.find?_cons, hne]
      exact ih h

/-- `Progress.set` on a tracked target updates its value. -/
theorem progress_get_set {V : Type} (p : Progress V) (t : Nat) (v0 v : V)
    (h : p.get t = some v0) : (p.set t v).get t = some v := by
  unfold Progress.get at *
  unfold Progress.set
  have hs : (p.entries.find? (fun te => te.1 == t)).isSome = true := by
    cases hf : p.entries.find? (fun te => te.1 == t) with
    | none => rw [hf] at h; simp at h
    | some x => rfl
  show ((p.entries.map (fun te => if te.1 = t then (t, v) else te)).find?
    (fun te => te.1 == t)).map (fun te => te.2) = some v
  rw [find_map_set t v p.entries hs]
  rfl

/-! Frame lemmas for the handler operations. -/

/-- Committing never touches the leader's progress trackers. -/
theorem try_commit_frame_leader (pol : RaftState → Bool) (rh : ReplicationHandler)
    (g : Option LogId) :
    (ReplicationHandler.try_commit_quorum_accepted pol rh g).1.leader = rh.leader := by
  unfold ReplicationHandler.try_commit_quorum_accepted
  split
  · rfl
  · split <;> rfl

/-- Purging never touches the leader's progress trackers. -/
theorem try_purge_frame_leader (rh : ReplicationHandler) :
    (ReplicationHandler.try_purge_log rh).1.leader = rh.leader := by
  unfold ReplicationHandler.try_purge_log
  split
  · rfl
  · split
    · rfl
    · split <;> rfl

/-! Case characterizations of `try_commit_quorum_accepted`. -/

/-- With no granted value, committing is a complete no-op. -/
theorem try_commit_none (pol : RaftState → Bool) (rh : ReplicationHandler) :
    ReplicationHandler.try_commit_quorum_accepted pol rh Option.none = (rh, []) := rfl

/-- A granted value from another leader is ignored. -/
theorem try_commit_mismatch (pol : RaftState → Bool) (rh : ReplicationHandler) (c : LogId)
    (h : c.leader_id ≠ rh.state.vote_leader_id) :
    ReplicationHandler.try_commit_quorum_accepted pol rh (some c) = (rh, []) := by
  unfold ReplicationHandler.try_commit_quorum_accepted
  have hb : (c.leader_id == rh.state.vote_leader_id) = false := by
    simpa using h
  simp [hb]

/-- A granted value from the current leader that is ahead of `committed` advances it
and emits the commit commands. -/
theorem try_commit_match_advance (pol : RaftState → Bool) (rh : ReplicationHandler)
    (c : LogId) (h : c.leader_id = rh.state.vote_leader_id)
    (hlt : oltb rh.state.committed (some c) = true) :
    ReplicationHandler.try_commit_quorum_accepted pol rh (some c) =
      ({ rh with state := { rh.state with committed := some c } },
       [Command.ReplicateCommitted (some c), Command.Commit rh.state.committed c]
         ++ (if pol { rh.state with committed := some c } then [Command.TriggerSnapshot]
             else [])) := by
  unfold ReplicationHandler.try_commit_quorum_accepted RaftState.update_committed
  have hb : (c.leader_id == rh.state.vote_leader_id) = true := by
    simpa using h
  dsimp only
  rw [hb, hlt]
  simp only [Bool.not_true, Bool.false_eq_true, if_false, eq_self_iff_true, if_true]
  split <;> simp

/-- A granted value from the current leader that is not ahead of `committed` changes
nothing. -/
theorem try_commit_match_noadvance (pol : RaftState → Bool) (rh : ReplicationHandler)
    (c : LogId) (h : c.leader_id = rh.state.vote_leader_id)
    (hlt : oltb rh.state.committed (some c) = false) :
    ReplicationHandler.try_commit_quorum_accepted pol rh (some c) = (rh, []) := by
  unfold ReplicationHandler.try_commit_quorum_accepted RaftState.update_committed
  have hb : (c.leader_id == rh.state.vote_leader_id) = true := by
    simpa using h
  dsimp only
  rw [hb, hlt]
  simp

/-! Concrete states used by the witnesses. -/

/-- A three-voter membership used by the witnesses. -/
def exMembership : RaftMembership := { configs := [[1, 2, 3]], learners := [] }

/-- A leader raft state used by the witnesses. -/
def exRaftState : RaftState :=
  { vote_leader_id := 1, server_state := ServerState.Leader, committed := Option.none,
    last_purged_log_id := Option.none, purge_upto := Option.none,
    last_log_id := some (LogId.mk 1 3), snapshot_last := Option.none,
    effective := { log_id := Option.none, membership := exMembership } }

/-- An idle progress entry with the given matching value. -/
def exEntry (m : Option LogId) : ProgressEntry :=
  { matching := m, end_ := 4, inflight := Inflight.None }

/-- A three-target progress used by the witnesses. -/
def exProgress : Progress ProgressEntry :=
  { entries := [(1, exEntry (some (LogId.mk 1 3))), (2, exEntry (some (LogId.mk 1 3))),
      (3, exEntry Option.none)],
    quorum_set := { configs := [[1, 2, 3]] } }

/-- A three-target clock progress used by the witnesses. -/
def exClock : Progress (Option Nat) :=
  { entries := [(1, Option.none), (2, Option.none), (3, Option.none)],
    quorum_set := { configs := [[1, 2, 3]] } }

/-- A leader handler state used by the witnesses. -/
def exRH : ReplicationHandler :=
  { leader := { progress := exProgress, clock_progress := exClock }, state := exRaftState }

/-- A snapshot policy that never fires, used by the witnesses. -/
def polFalse : RaftState → Bool := fun _ => false

/-- C1: for every call to `try_commit_quorum_accepted(granted)`, `committed` never
decreases; it is advanced to the granted log id only if that log id's leader id equals
the current vote's leader id; and when the leader id differs the state is unchanged and
no command is emitted. -/
theorem C1_commit_monotone_and_leader_rule (pol : RaftState → Bool)
    (rh : ReplicationHandler) (granted : Option LogId) :
    oleb rh.state.committed
        (ReplicationHandler.try_commit_quorum_accepted pol rh granted).1.state.committed = true
    ∧ ((ReplicationHandler.try_commit_quorum_accepted pol rh granted).1.state.committed
          ≠ rh.state.committed →
        ∃ c, granted = some c ∧ c.leader_id = rh.state.vote_leader_id
          ∧ (ReplicationHandler.try_commit_quorum_accepted pol rh granted).1.state.committed
              = granted)
    ∧ (∀ c, granted = some c → c.leader_id ≠ rh.state.vote_leader_id →
        ReplicationHandler.try_commit_quorum_accepted pol rh granted = (rh, [])) := by
  rcases granted with _ | c
  · rw [try_commit_none]
    exact ⟨oleb_refl _, fun h => absurd rfl h, fun c hc => by cases hc⟩
  · by_cases hL : c.leader_id = rh.state.vote_leader_id
    · cases hlt : oltb rh.state.committed (some c) with
      | false =>
        rw [try_commit_match_noadvance pol rh c hL hlt]
        refine ⟨oleb_refl _, fun h => absurd rfl h, ?_⟩
        intro c' hc' hne
        cases hc'
        exact absurd hL hne
      | true =>
        rw [try_commit_match_advance pol rh c hL hlt]
        refine ⟨oltb_imp_oleb _ _ hlt, fun _ => ⟨c, rfl, hL, rfl⟩, ?_⟩
        intro c' hc' hne
        cases hc'
        exact absurd hL hne
    · rw [try_commit_mismatch pol rh c hL]
      exact ⟨oleb_refl _, fun h => absurd rfl h, fun c' hc' hne => rfl⟩

/-- C1 witness: a granted log id from a foreign leader is dropped without any change. -/
theorem C1_witness :
    ReplicationHandler.try_commit_quorum_accepted polFalse exRH (some (LogId.mk 2 4))
      = (exRH, []) :=
  (C1_commit_monotone_and_leader_rule polFalse exRH (some (LogId.mk 2 4))).2.2
    (LogId.mk 2 4) rfl (by decide)

/-- C2: whenever `try_commit_quorum_accepted` advances `committed`, it pushes exactly
the `ReplicateCommitted` command with the new committed value and the `Commit` command
with `already_committed` the previous value and `upto` the new committed log id, then
triggers a snapshot iff the snapshot policy fires on the new state. -/
theorem C2_commit_advance_commands (pol : RaftState → Bool) (rh : ReplicationHandler)
    (granted : Option LogId) (c : LogId) (h1 : granted = some c)
    (h2 : c.leader_id = rh.state.vote_leader_id)
    (h3 : oltb rh.state.committed granted = true) :
    (ReplicationHandler.try_commit_quorum_accepted pol rh granted).2 =
      [Command.ReplicateCommitted granted, Command.Commit rh.state.committed c]
        ++ (if pol { rh.state with committed := granted } then [Command.TriggerSnapshot]
            else [])
    ∧ (ReplicationHandler.try_commit_quorum_accepted pol rh granted).1.state.committed
        = granted := by
  subst h1
  rw [try_commit_match_advance pol rh c h2 h3]
  exact ⟨rfl, rfl⟩

/-- C2 witness: in a concrete advance the two commands are emitted and nothing else
(the policy does not fire). -/
theorem C2_witness :
    (ReplicationHandler.try_commit_quorum_accepted polFalse exRH (some (LogId.mk 1 3))).2
      = [Command.ReplicateCommitted (some (LogId.mk 1 3)),
         Command.Commit exRH.state.committed (LogId.mk 1 3)] := by
  have h := (C2_commit_advance_commands polFalse exRH (some (LogId.mk 1 3)) (LogId.mk 1 3)
    rfl (by decide) (by decide)).1
  rw [h]
  simp [polFalse]

/-! C3: stale replies. -/

/-- A target entry whose inflight request has id 5 (so ids 7 and 9 are stale). -/
def exEntryStale : ProgressEntry :=
  { matching := Option.none, end_ := 9,
    inflight := Inflight.Logs 5 Option.none (some (LogId.mk 1 3)) }

/-- A handler state whose target 2 has the stale-prone inflight. -/
def exRHStale : ReplicationHandler :=
  { leader := { progress := { entries := [(1, exEntry (some (LogId.mk 1 3))), (2, exEntryStale)],
                              quorum_set := { configs := [[1, 2]] } },
                clock_progress := exClock },
    state := exRaftState }

/-- C3 counterexample: delivering a reply whose request id (7) does not match target
2's current inflight id (5) makes `update_matching` and `update_conflicting` hit the
panic outcome (modelled as `none`), refuting the claim that such a reply is dropped
silently without error and without panic. -/
theorem C3_counterexample :
    ReplicationHandler.update_matching polFalse exRHStale 2 7 (some (LogId.mk 1 3))
        = Option.none
    ∧ ReplicationHandler.update_conflicting exRHStale 2 7 (LogId.mk 1 3) = Option.none := by
  decide

/-- C3 amended: delivering a reply whose request id does not match the target's current
inflight id is a fatal logic error — both `update_matching` and `update_conflicting`
panic (modelled as `none`); no partial state change is returned. -/
theorem C3_amended_stale_reply_is_fatal (pol : RaftState → Bool) (rh : ReplicationHandler)
    (t rid : Nat) (lid : Option LogId) (conflict : LogId) (e : ProgressEntry)
    (hget : rh.leader.progress.get t = some e)
    (hid : e.inflight.get_id ≠ some rid) :
    ReplicationHandler.update_matching pol rh t rid lid = Option.none
    ∧ ReplicationHandler.update_conflicting rh t rid conflict = Option.none := by
  simp only [ReplicationHandler.update_matching, ReplicationHandler.update_conflicting, hget]
  simp only [ProgressEntry.update_matching, ProgressEntry.update_conflicting, if_neg hid]
  exact ⟨trivial, trivial⟩

/-- C3 witness: the amended fatality at a concrete stale id (9 against inflight id 5). -/
theorem C3_witness :
    ReplicationHandler.update_matching polFalse exRHStale 2 9 (some (LogId.mk 1 3))
        = Option.none
    ∧ ReplicationHandler.update_conflicting exRHStale 2 9 (LogId.mk 1 3) = Option.none :=
  C3_amended_stale_reply_is_fatal polFalse exRHStale 2 9 (some (LogId.mk 1 3))
    (LogId.mk 1 3) exEntryStale (by decide) (by decide)

/-- C4: `try_purge_log` emits `PurgeLog{upto}` iff `purge_upto` is ahead of
`last_purged_log_id` and no progress entry has an inflight logs range covering an index
up to `purge_upto`; in every other case it emits nothing and changes no state. -/
theorem C4_purge_gating (rh : ReplicationHandler) :
    (∀ u, Command.PurgeLog u ∈ (ReplicationHandler.try_purge_log rh).2 ↔
      (rh.state.purge_upto = some u
        ∧ oltb rh.state.last_purged_log_id rh.state.purge_upto = true
        ∧ rh.leader.progress.entries.any (fun te => te.2.is_log_range_inflight u) = false))
    ∧ ((ReplicationHandler.try_purge_log rh).2 = [] →
        ReplicationHandler.try_purge_log rh = (rh, [])) := by
  unfold ReplicationHandler.try_purge_log
  cases hg : oleb rh.state.purge_upto rh.state.last_purged_log_id with
  | true =>
    rw [if_pos rfl]
    refine ⟨?_, fun _ => rfl⟩
    intro u
    constructor
    · intro hmem
      simp at hmem
    · rintro ⟨h1, h2, h3⟩
      unfold oltb at h2
      rw [h1] at hg
      rw [h1] at h2
      rw [hg] at h2
      simp at h2
  | false =>
    rw [if_neg (by simp)]
    cases hp : rh.state.purge_upto with
    | none =>
      rw [hp] at hg
      simp [oleb] at hg
    | some u0 =>
      rw [hp] at hg
      dsimp only
      cases hu : rh.leader.progress.entries.any (fun te => te.2.is_log_range_inflight u0) with
      | true =>
        rw [if_pos rfl]
        refine ⟨?_, fun _ => rfl⟩
        intro u
        constructor
        · intro hmem
          simp at hmem
        · rintro ⟨h1, h2, h3⟩
          injection h1 with h1
          subst h1
          rw [hu] at h3
          simp at h3
      | false =>
        rw [if_neg (by simp)]
        constructor
        · intro u
          constructor
          · intro hmem
            simp at hmem
            cases hmem
            refine ⟨rfl, ?_, hu⟩
            unfold oltb
            rw [hg]
            rfl
          · rintro ⟨h1, h2, h3⟩
            injection h1 with h1
            subst h1
            simp
        · intro hcs
          simp at hcs

/-- A handler state with a pending purge and no overlapping inflight. -/
def exRHPurge : ReplicationHandler :=
  { leader := { progress := exProgress, clock_progress := exClock },
    state := { exRaftState with purge_upto := some (LogId.mk 1 2) } }

/-- C4 witness: with `purge_upto` ahead of `last_purged_log_id` and no inflight logs
range in use, the purge command is emitted. -/
theorem C4_witness :
    Command.PurgeLog (LogId.mk 1 2) ∈ (ReplicationHandler.try_purge_log exRHPurge).2 :=
  ((C4_purge_gating exRHPurge).1 (LogId.mk 1 2)).mpr ⟨rfl, by decide, by decide⟩

/-- C5: `update_progress` dispatches a success to `update_success_progress`, leaves the
inflight untouched on a heartbeat transport error, clears the target's inflight on a
data transport error, and in every non-panicking case runs `try_purge_log` afterwards. -/
theorem C5_update_progress_dispatch (pol : RaftState → Bool) (rh : ReplicationHandler)
    (target : Nat) (request_id : RequestId) :
    (∀ r : ReplicationResult,
      ReplicationHandler.update_progress pol rh target request_id (Except.ok r) =
        match ReplicationHandler.update_success_progress pol rh target request_id r with
        | Option.none => Option.none
        | some sc => some ((ReplicationHandler.try_purge_log sc.1).1,
            sc.2 ++ (ReplicationHandler.try_purge_log sc.1).2))
    ∧ (∀ msg : String, request_id = RequestId.HeartBeat →
        ReplicationHandler.update_progress pol rh target request_id (Except.error msg) =
          some ((ReplicationHandler.try_purge_log rh).1, (ReplicationHandler.try_purge_log rh).2)
        ∧ (ReplicationHandler.try_purge_log rh).1.leader = rh.leader)
    ∧ (∀ (msg : String) (i : Nat) (e : ProgressEntry), request_id = RequestId.Data i →
        rh.leader.progress.get target = some e →
        ReplicationHandler.update_progress pol rh target request_id (Except.error msg) =
          (let p2 := rh.leader.progress.set target ({ e with inflight := Inflight.None })
           let rh2 : ReplicationHandler := { rh with leader := { rh.leader with progress := p2 } }
           some ((ReplicationHandler.try_purge_log rh2).1,
             (ReplicationHandler.try_purge_log rh2).2))) := by
  refine ⟨?_, ?_, ?_⟩
  · intro r
    unfold ReplicationHandler.update_progress
    dsimp only
    cases ReplicationHandler.update_success_progress pol rh target request_id r with
    | none => rfl
    | some sc => rfl
  · intro msg hhb
    subst hhb
    exact ⟨rfl, try_purge_frame_leader rh⟩
  · intro msg i e hid hget
    subst hid
    simp only [ReplicationHandler.update_progress, hget]
    rfl

/-- C5 witness: a heartbeat transport error at a concrete state triggers only the purge
re-examination. -/
theorem C5_witness :
    ReplicationHandler.update_progress polFalse exRH 2 RequestId.HeartBeat
        (Except.error "transport") =
      some ((ReplicationHandler.try_purge_log exRH).1,
        (ReplicationHandler.try_purge_log exRH).2) :=
  (((C5_update_progress_dispatch polFalse exRH 2 RequestId.HeartBeat).2.1) "transport" rfl).1

/-- C6: under the leader precondition, `append_membership` appends the new membership
as effective, then rebuilds the progresses, rebuilds the replication streams and
initiates replication with `send_none = False`; it never changes `server_state`. -/
theorem C6_append_membership_sequence (cfg_id max_payload : Nat) (rh : ReplicationHandler)
    (log_id : LogId) (m : RaftMembership)
    (h : rh.state.server_state = ServerState.Leader) :
    (ReplicationHandler.append_membership cfg_id max_payload rh log_id m).1.state =
      { rh.state with effective := { log_id := some log_id, membership := m } }
    ∧ (let rh1 : ReplicationHandler := { rh with state := { rh.state with effective :=
          { log_id := some log_id, membership := m } } }
       let rh2 := ReplicationHandler.rebuild_progresses rh1
       let r3 := ReplicationHandler.rebuild_replication_streams cfg_id rh2
       let r4 := ReplicationHandler.initiate_replication cfg_id max_payload SendNone.False r3.1
       ReplicationHandler.append_membership cfg_id max_payload rh log_id m = (r4.1, r3.2 ++ r4.2))
    ∧ (ReplicationHandler.append_membership cfg_id max_payload rh log_id m).1.state.server_state
        = rh.state.server_state := by
  exact ⟨rfl, rfl, rfl⟩

/-- C6 witness: a concrete joint-membership append leaves the server state as it was. -/
theorem C6_witness :
    (ReplicationHandler.append_membership 1 10 exRH (LogId.mk 1 4)
        { configs := [[1, 2, 3], [3, 4, 5]], learners := [6] }).1.state.server_state
      = exRH.state.server_state :=
  (C6_append_membership_sequence 1 10 exRH (LogId.mk 1 4)
    { configs := [[1, 2, 3], [3, 4, 5]], learners := [6] } (by decide)).2.2

/-- C7: after `rebuild_progresses`, targets in both the old and new configurations keep
their exact progress entry, new targets get the default entry (`matching = None`,
`end = last_log_id.next_index()`), removed targets are dropped, and the clock progress
is rebuilt the same way with default `None`. -/
theorem C7_membership_upgrade_preservation (rh : ReplicationHandler) (t : Nat) :
    (∀ e : ProgressEntry,
        t ∈ rh.state.effective.membership.to_quorum_set.ids
            ++ rh.state.effective.membership.learners →
        rh.leader.progress.get t = some e →
        (ReplicationHandler.rebuild_progresses rh).leader.progress.get t = some e)
    ∧ (t ∈ rh.state.effective.membership.to_quorum_set.ids
            ++ rh.state.effective.membership.learners →
        rh.leader.progress.get t = Option.none →
        (ReplicationHandler.rebuild_progresses rh).leader.progress.get t
          = some (ProgressEntry.empty (next_index rh.state.last_log_id)))
    ∧ (¬ t ∈ rh.state.effective.membership.to_quorum_set.ids
            ++ rh.state.effective.membership.learners →
        (ReplicationHandler.rebuild_progresses rh).leader.progress.get t = Option.none)
    ∧ (∀ v : Option Nat,
        t ∈ rh.state.effective.membership.to_quorum_set.ids
            ++ rh.state.effective.membership.learners →
        rh.leader.clock_progress.get t = some v →
        (ReplicationHandler.rebuild_progresses rh).leader.clock_progress.get t = some v)
    ∧ (t ∈ rh.state.effective.membership.to_quorum_set.ids
            ++ rh.state.effective.membership.learners →
        rh.leader.clock_progress.get t = Option.none →
        (ReplicationHandler.rebuild_progresses rh).leader.clock_progress.get t
          = some Option.none)
    ∧ (¬ t ∈ rh.state.effective.membership.to_quorum_set.ids
            ++ rh.state.effective.membership.learners →
        (ReplicationHandler.rebuild_progresses rh).leader.clock_progress.get t
          = Option.none) := by
  have hup := progress_get_upgrade rh.leader.progress
    rh.state.effective.membership.to_quorum_set rh.state.effective.membership.learners
    (ProgressEntry.empty (next_index rh.state.last_log_id)) t
  have hupc := progress_get_upgrade rh.leader.clock_progress
    rh.state.effective.membership.to_quorum_set rh.state.effective.membership.learners
    (Option.none : Option Nat) t
  refine ⟨?_, ?_, ?_, ?_, ?_, ?_⟩
  · intro e hm hg
    show (rh.leader.progress.upgrade_quorum_set rh.state.effective.membership.to_quorum_set
      rh.state.effective.membership.learners
      (ProgressEntry.empty (next_index rh.state.last_log_id))).get t = some e
    rw [hup, if_pos hm, hg]
    rfl
  · intro hm hg
    show (rh.leader.progress.upgrade_quorum_set rh.state.effective.membership.to_quorum_set
      rh.state.effective.membership.learners
      (ProgressEntry.empty (next_index rh.state.last_log_id))).get t
        = some (ProgressEntry.empty (next_index rh.state.last_log_id))
    rw [hup, if_pos hm, hg]
    rfl
  · intro hm
    show (rh.leader.progress.upgrade_quorum_set rh.state.effective.membership.to_quorum_set
      rh.state.effective.membership.learners
      (ProgressEntry.empty (next_index rh.state.last_log_id))).get t = Option.none
    rw [hup, if_neg hm]
  · intro v hm hg
    show (rh.leader.clock_progress.upgrade_quorum_set rh.state.effective.membership.to_quorum_set
      rh.state.effective.membership.learners (Option.none : Option Nat)).get t = some v
    rw [hupc, if_pos hm, hg]
    rfl
  · intro hm hg
    show (rh.leader.clock_progress.upgrade_quorum_set rh.state.effective.membership.to_quorum_set
      rh.state.effective.membership.learners (Option.none : Option Nat)).get t
        = some Option.none
    rw [hupc, if_pos hm, hg]
    rfl
  · intro hm
    show (rh.leader.clock_progress.upgrade_quorum_set rh.state.effective.membership.to_quorum_set
      rh.state.effective.membership.learners (Option.none : Option Nat)).get t = Option.none
    rw [hupc, if_neg hm]

/-- C7 witness: a concrete surviving target keeps its exact entry across the rebuild. -/
theorem C7_witness :
    (ReplicationHandler.rebuild_progresses exRH).leader.progress.get 2
      = some (exEntry (some (LogId.mk 1 3))) :=
  (C7_membership_upgrade_preservation exRH 2).1 (exEntry (some (LogId.mk 1 3)))
    (by decide) (by decide)

/-- Characterization of the `rebuild_replication_streams` loop: the new entries are the
old ones with every non-self inflight reset, and the collected targets are exactly the
non-self entries after the reset. -/
theorem rebuild_streams_foldl (cfg_id : Nat) :
    ∀ (l : List (Nat × ProgressEntry)) (acc : List (Nat × ProgressEntry) × List (Nat × ProgressEntry)),
      l.foldl (rebuild_streams_step cfg_id) acc =
        (acc.1 ++ l.map (fun te => if te.1 = cfg_id then te
            else (te.1, { te.2 with inflight := Inflight.None })),
         acc.2 ++ (l.filter (fun te => !(te.1 == cfg_id))).map
            (fun te => (te.1, { te.2 with inflight := Inflight.None }))) := by
  intro l
  induction l with
  | nil => intro acc; simp
  | cons a l ih =>
    intro acc
    rw [List.foldl_cons, ih]
    unfold rebuild_streams_step
    by_cases h : a.1 = cfg_id
    · rw [if_pos h]
      have hb : (a.1 == cfg_id) = true := by simpa using h
      simp [List.filter_cons, hb, h]
    · rw [if_neg h]
      have hb : (a.1 == cfg_id) = false := by simpa using h
      simp [List.filter_cons, hb, h]

/-- C8: `rebuild_replication_streams` resets the inflight of every non-self target,
leaves the local entry, the raft state, the clock progress and the quorum set
untouched, and emits exactly one `RebuildReplicationStreams` command listing precisely
the non-self targets with their post-reset entries. -/
theorem C8_rebuild_replication_streams (cfg_id : Nat) (rh : ReplicationHandler) :
    (ReplicationHandler.rebuild_replication_streams cfg_id rh).1.leader.progress.entries =
      rh.leader.progress.entries.map (fun te => if te.1 = cfg_id then te
        else (te.1, { te.2 with inflight := Inflight.None }))
    ∧ (ReplicationHandler.rebuild_replication_streams cfg_id rh).2 =
      [Command.RebuildReplicationStreams
        ((rh.leader.progress.entries.filter (fun te => !(te.1 == cfg_id))).map
          (fun te => (te.1, { te.2 with inflight := Inflight.None })))]
    ∧ (ReplicationHandler.rebuild_replication_streams cfg_id rh).1.state = rh.state
    ∧ (ReplicationHandler.rebuild_replication_streams cfg_id rh).1.leader.clock_progress
        = rh.leader.clock_progress
    ∧ (ReplicationHandler.rebuild_replication_streams cfg_id rh).1.leader.progress.quorum_set
        = rh.leader.progress.quorum_set := by
  unfold ReplicationHandler.rebuild_replication_streams
  rw [rebuild_streams_foldl]
  exact ⟨by simp, by simp, rfl, rfl, rfl⟩

/-- Observer: the matching value recorded for a target (used to state monotonicity). -/
def matching_of (rh : ReplicationHandler) (t : Nat) : Option LogId :=
  match rh.leader.progress.get t with
  | some e => e.matching
  | Option.none => Option.none

/-- In the active case, `update_local_progress` is exactly: record the synthesized
`Inflight::logs(None, upto)` on the leader's own entry, then `update_matching` with
that inflight's id. -/
theorem update_local_progress_active (pol : RaftState → Bool) (cfg_id : Nat)
    (rh : ReplicationHandler) (u : LogId) (e : ProgressEntry)
    (hget : rh.leader.progress.get cfg_id = some e)
    (hlt : oleb (some u) e.matching = false) :
    ReplicationHandler.update_local_progress pol cfg_id rh (some u) =
      ReplicationHandler.update_matching pol
        { rh with leader := { rh.leader with progress := rh.leader.progress.set cfg_id ({ e with inflight := Inflight.logs Option.none (some u) }) } }
        cfg_id 0 (some u) := by
  have hneg : ¬(oleb (some u) e.matching = true) := by
    simp [hlt]
  simp only [ReplicationHandler.update_local_progress, hget]
  rw [if_neg hneg]
  rfl

/-- A successful entry update inside `update_matching` yields a result whose progress
is the input progress with the target's entry replaced. -/
theorem update_matching_result_progress (pol : RaftState → Bool) (rh : ReplicationHandler)
    (node i : Nat) (lid : Option LogId) (e e2 : ProgressEntry)
    (hget : rh.leader.progress.get node = some e)
    (hup : e.update_matching i lid = Except.ok e2) :
    ∃ rc, ReplicationHandler.update_matching pol rh node i lid = some rc
      ∧ rc.1.leader.progress = rh.leader.progress.set node e2 := by
  simp only [ReplicationHandler.update_matching, hget, hup]
  refine ⟨_, rfl, ?_⟩
  rw [try_commit_frame_leader]

/-- C9: `update_local_progress(Some(upto))`, when the leader's own entry is tracked and
behind, synthesizes `Inflight::logs(None, upto)` on it and calls `update_matching` with
the local node id, that inflight's id and `upto`. -/
theorem C9_update_local_progress_synthesizes (pol : RaftState → Bool) (cfg_id : Nat)
    (rh : ReplicationHandler) (upto : LogId) (e : ProgressEntry)
    (hget : rh.leader.progress.get cfg_id = some e)
    (hlt : oleb (some upto) e.matching = false) :
    ∃ i, (Inflight.logs Option.none (some upto)).get_id = some i
      ∧ ReplicationHandler.update_local_progress pol cfg_id rh (some upto) =
        ReplicationHandler.update_matching pol
          { rh with leader := { rh.leader with progress := rh.leader.progress.set cfg_id ({ e with inflight := Inflight.logs Option.none (some upto) }) } }
          cfg_id i (some upto) :=
  ⟨0, rfl, update_local_progress_active pol cfg_id rh upto e hget hlt⟩

/-- C9 witness: the synthesis at a concrete leader that is one entry behind. -/
theorem C9_witness :
    ∃ i, (Inflight.logs Option.none (some (LogId.mk 1 4))).get_id = some i
      ∧ ReplicationHandler.update_local_progress polFalse 1 exRH (some (LogId.mk 1 4)) =
        ReplicationHandler.update_matching polFalse
          { exRH with leader := { exRH.leader with progress := exRH.leader.progress.set 1 ({ exEntry (some (LogId.mk 1 3)) with inflight := Inflight.logs Option.none (some (LogId.mk 1 4)) }) } }
          1 i (some (LogId.mk 1 4)) :=
  C9_update_local_progress_synthesizes polFalse 1 exRH (LogId.mk 1 4)
    (exEntry (some (LogId.mk 1 3))) (by decide) (by decide)

/-- C10: `update_local_progress` is a complete no-op when `upto` is `None`, when the
leader's own entry is untracked, or when its matching is already at least `upto`; and
in every non-panicking run the leader's own matching never decreases. -/
theorem C10_update_local_progress_noop (pol : RaftState → Bool) (cfg_id : Nat)
    (rh : ReplicationHandler) (upto : Option LogId) (e : ProgressEntry) :
    (ReplicationHandler.update_local_progress pol cfg_id rh Option.none = some (rh, []))
    ∧ (rh.leader.progress.get cfg_id = Option.none →
        ReplicationHandler.update_local_progress pol cfg_id rh upto = some (rh, []))
    ∧ (rh.leader.progress.get cfg_id = some e → oleb upto e.matching = true →
        ReplicationHandler.update_local_progress pol cfg_id rh upto = some (rh, []))
    ∧ (∀ rh2 cs, ReplicationHandler.update_local_progress pol cfg_id rh upto = some (rh2, cs) →
        oleb (matching_of rh cfg_id) (matching_of rh2 cfg_id) = true) := by
  refine ⟨rfl, ?_, ?_, ?_⟩
  · intro hg
    cases upto with
    | none => rfl
    | some u =>
      simp only [ReplicationHandler.update_local_progress, hg]
  · intro hg hle
    cases upto with
    | none => rfl
    | some u =>
      simp only [ReplicationHandler.update_local_progress, hg]
      rw [if_pos hle]
  · intro rh2 cs hres
    cases upto with
    | none =>
      simp only [ReplicationHandler.update_local_progress, Option.some.injEq,
        Prod.mk.injEq] at hres
      obtain ⟨h1, h2⟩ := hres
      subst h1
      exact oleb_refl _
    | some u =>
      cases hg : rh.leader.progress.get cfg_id with
      | none =>
        simp only [ReplicationHandler.update_local_progress, hg, Option.some.injEq,
          Prod.mk.injEq] at hres
        obtain ⟨h1, h2⟩ := hres
        subst h1
        exact oleb_refl _
      | some e0 =>
        by_cases hle : oleb (some u) e0.matching = true
        · simp only [ReplicationHandler.update_local_progress, hg, if_pos hle,
            Option.some.injEq, Prod.mk.injEq] at hres
          obtain ⟨h1, h2⟩ := hres
          subst h1
          exact oleb_refl _
        · have hlt : oleb (some u) e0.matching = false := by
            cases hx : oleb (some u) e0.matching with
            | false => rfl
            | true => exact absurd hx hle
          rw [update_local_progress_active pol cfg_id rh u e0 hg hlt] at hres
          have hget1 : (rh.leader.progress.set cfg_id
              ({ e0 with inflight := Inflight.logs Option.none (some u) })).get cfg_id
              = some ({ e0 with inflight := Inflight.logs Option.none (some u) }) :=
            progress_get_set rh.leader.progress cfg_id e0 _ hg
          obtain ⟨rc, hrc, hprog⟩ := update_matching_result_progress pol
            { rh with leader := { rh.leader with progress := rh.leader.progress.set cfg_id ({ e0 with inflight := Inflight.logs Option.none (some u) }) } }
            cfg_id 0 (some u)
            ({ e0 with inflight := Inflight.logs Option.none (some u) })
            { matching := omax e0.matching (some u),
              end_ := max e0.end_ (next_index (omax e0.matching (some u))),
              inflight := Inflight.None }
            hget1 rfl
          rw [hrc] at hres
          injection hres with h1
          have h2 : rc.1 = rh2 := by rw [h1]
          have hm2 : matching_of rh2 cfg_id = omax e0.matching (some u) := by
            rw [← h2]
            unfold matching_of
            rw [hprog]
            rw [progress_get_set _ cfg_id
              ({ e0 with inflight := Inflight.logs Option.none (some u) }) _ hget1]
          rw [hm2]
          have hm1 : matching_of rh cfg_id = e0.matching := by
            unfold matching_of
            rw [hg]
          rw [hm1]
          exact oleb_omax_left _ _

/-- C10 witness: a `None` local-write notification changes nothing and emits nothing. -/
theorem C10_witness :
    ReplicationHandler.update_local_progress polFalse 1 exRH Option.none = some (exRH, []) :=
  (C10_update_local_progress_noop polFalse 1 exRH Option.none (exEntry Option.none)).1
